import Mathlib

/-!
Shallow embedding of the fuzzing core in `crates/evm/src/fuzz/mod.rs`
(`FuzzedExecutor::fuzz`, `FuzzedExecutor::single_fuzz`, `FuzzedCases`,
`FuzzTestResult`, `BaseCounterExample`).

External collaborators (the EVM executor, the ABI facility, the proptest
runner) are out of scope of the repository slice and are represented as
function-valued parameters: the executor supplies `call_raw` and
`is_success`, the ABI facility supplies `decode_input`, `decode_revert` and
`decode_console_logs`, and the proptest runner is represented by the ordered
list of calldata inputs it drove plus its final verdict (`Ok`, `Abort` or
`Fail`).  Byte strings are lists of naturals; addresses, trace arenas, log
records and exit reasons are opaque naturals.  Rust panics are modelled by
`Option`: a function returns `none` exactly when the transcribed Rust would
panic.
-/

namespace FuzzVerify

/-- Byte strings (`Bytes`, `Vec<u8>` in the source). -/
abbrev Bytes := List Nat

/-- Coverage hit maps: association list from program counter to hit count. -/
abbrev HitMaps := List (Nat × Nat)

/-- Modelled from the spec: `HitMaps::merge` lives in the coverage module,
which is not part of the slice.  The spec describes the merge as union with
per-program-counter hit-count addition; `addHit` adds one (pc, count) entry. -/
def HitMaps.addHit : HitMaps → Nat × Nat → HitMaps
  | [], e => [e]
  | (pc, n) :: rest, (pc', n') =>
    if pc = pc' then (pc, n + n') :: rest else (pc, n) :: HitMaps.addHit rest (pc', n')

/-- Modelled from the spec: union of two hit maps with hit-count addition. -/
def HitMaps.merge (a b : HitMaps) : HitMaps := b.foldl HitMaps.addHit a

/-- The part of the cheatcodes state the fuzzer reads: the breakpoint map
(char key, address, program counter), keys as opaque naturals. -/
structure CheatcodesState where
  breakpoints : List (Nat × Nat × Nat)
  deriving Repr, DecidableEq

/-- Raw call result returned by `Executor::call_raw` (field for field as the
fuzz core consumes it; log records, traces and exit reasons are opaque). -/
structure RawCallResult where
  result : Bytes
  reverted : Bool
  exit_reason : Nat
  gas_used : Nat
  stipend : Nat
  logs : List Nat
  state_changeset : Option (List (Nat × Nat))
  traces : Option Nat
  coverage : Option HitMaps
  labels : List (Nat × String)
  cheatcodes : Option CheatcodesState
  deriving Repr, DecidableEq

/-- Modelled from the spec: `RawCallResult::default()` (executor module, not
in the slice) — every field empty, zero, `false` or absent. -/
def RawCallResult.default : RawCallResult :=
  { result := [], reverted := false, exit_reason := 0, gas_used := 0, stipend := 0,
    logs := [], state_changeset := none, traces := none, coverage := none,
    labels := [], cheatcodes := none }

/-- A successful fuzz case: `FuzzCase { calldata, gas, stipend }`. -/
structure FuzzCase where
  calldata : Bytes
  gas : Nat
  stipend : Nat
  deriving Repr, DecidableEq

/-- Modelled from the spec: the derived `Default` of `FuzzCase` (types module,
not in the slice) — empty calldata, zero gas, zero stipend. -/
def FuzzCase.default : FuzzCase := { calldata := [], gas := 0, stipend := 0 }

/-- `CaseOutcome` as consumed by the fuzz loop. -/
structure CaseOutcome where
  case : FuzzCase
  traces : Option Nat
  coverage : Option HitMaps
  breakpoints : List (Nat × Nat × Nat)
  deriving Repr, DecidableEq

/-- `CounterExampleOutcome` as consumed by the fuzz loop: the pair
`counterexample = (calldata, raw call result)` is the payload the loop stores. -/
structure CounterExampleOutcome where
  exit_reason : Nat
  counterexample : Bytes × RawCallResult
  breakpoints : List (Nat × Nat × Nat)
  deriving Repr, DecidableEq

/-- `FuzzOutcome`: what `single_fuzz` returns on the happy path. -/
inductive FuzzOutcome where
  | Case (c : CaseOutcome)
  | CounterExample (c : CounterExampleOutcome)
  deriving Repr, DecidableEq

/-- `proptest::TestCaseError`: `fail` starts shrinking, `reject` discards
the input and draws again. -/
inductive TestCaseError where
  | reject (reason : String)
  | fail (reason : String)
  deriving Repr, DecidableEq

/-- Modelled from the spec: display string of `FuzzError::FailedContractCall`
(error module, not in the slice). -/
def failedContractCallMsg : String := "failed contract call"

/-- Modelled from the spec: display string of `FuzzError::EmptyChangeset`. -/
def emptyChangesetMsg : String := "empty changeset"

/-- Modelled from the spec: display string of `FuzzError::AssumeReject`. -/
def assumeRejectedMsg : String := "assume rejected"

/-- Modelled from the spec: display string of `FuzzError::TooManyRejects n`. -/
def tooManyRejectsMsg (n : Nat) : String :=
  "too many rejects (n = " ++ toString n ++ ")"

/-- Modelled from the spec: `ASSUME_MAGIC_RETURN_CODE` (error module, not in
the slice) — the ASCII bytes of "FOUNDRY::ASSUME" right-padded with zeros to
32 bytes. -/
def ASSUME_MAGIC_RETURN_CODE : Bytes :=
  [70, 79, 85, 78, 68, 82, 89, 58, 58, 65, 83, 83, 85, 77, 69] ++ List.replicate 17 0

/-- The dictionary configuration; only the weight is read by the fuzz core. -/
structure FuzzDictionaryConfig where
  dictionary_weight : Nat
  deriving Repr, DecidableEq

/-- The external EVM executor, as consumed by the fuzz core: `call_raw`
takes (sender, to, calldata, value) and may fail (infrastructure error,
modelled as `none`); `is_success` takes (address, reverted, state changeset,
should_fail) and owns the expected-failure inversion. -/
structure Executor where
  call_raw : Nat → Nat → Bytes → Nat → Option RawCallResult
  is_success : Nat → Bool → List (Nat × Nat) → Bool → Bool

/-- Modelled from the spec: `collect_state_from_call` (strategies module, not
in the slice) absorbs values harvested from the call's logs and post-call
storage values into the shared dictionary; values already present are no-ops.
The per-category capacity bound is left out (eviction is
implementation-defined and unused by the claims). -/
def collect_state_from_call (logs : List Nat) (state_changeset : List (Nat × Nat))
    (state : List Nat) (_config : FuzzDictionaryConfig) : List Nat :=
  (logs ++ state_changeset.map Prod.snd).foldl
    (fun s v => if v ∈ s then s else s ++ [v]) state

/-- `FuzzedExecutor::single_fuzz`: one raw call, changeset check, dictionary
absorb, assume-sentinel check, then classification by `is_success`.  The
first component is the dictionary state after the call (the Rust mutates the
shared `EvmFuzzState` in place). -/
def single_fuzz (exec : Executor) (sender : Nat) (config : FuzzDictionaryConfig)
    (state : List Nat) (address : Nat) (should_fail : Bool) (calldata : Bytes) :
    List Nat × Except TestCaseError FuzzOutcome :=
  match exec.call_raw sender address calldata 0 with
  | none => (state, Except.error (TestCaseError.fail failedContractCallMsg))
  | some call =>
    match call.state_changeset with
    | none => (state, Except.error (TestCaseError.fail emptyChangesetMsg))
    | some state_changeset =>
      let state := collect_state_from_call call.logs state_changeset state config
      if call.result = ASSUME_MAGIC_RETURN_CODE then
        (state, Except.error (TestCaseError.reject assumeRejectedMsg))
      else
        let breakpoints := (call.cheatcodes.map CheatcodesState.breakpoints).getD []
        if exec.is_success address call.reverted state_changeset should_fail then
          (state, Except.ok (FuzzOutcome.Case
            { case := { calldata := calldata, gas := call.gas_used, stipend := call.stipend },
              traces := call.traces, coverage := call.coverage, breakpoints := breakpoints }))
        else
          (state, Except.ok (FuzzOutcome.CounterExample
            { exit_reason := call.exit_reason, counterexample := (calldata, call),
              breakpoints := breakpoints }))

/-- The session-scoped mutable cells captured by the fuzz loop's closure:
`first_case`, `gas_by_case`, the counterexample slot, the last successful
trace, the merged coverage, plus the shared dictionary state. -/
structure LoopState where
  first_case : Option FuzzCase
  gas_by_case : List (Nat × Nat)
  counterexample : Bytes × RawCallResult
  traces : Option Nat
  coverage : Option HitMaps
  fuzz_state : List Nat
  deriving Repr, DecidableEq

/-- The fixed per-session environment: the executor, the sender, the
dictionary configuration, and the external ABI facility (`decode_input` for
the fuzzed function, `decode_revert` against the session error set,
`decode_console_logs`). -/
structure FuzzEnv where
  executor : Executor
  sender : Nat
  config : FuzzDictionaryConfig
  decode_revert : Bytes → Nat → Option String
  decode_input : Bytes → Option (List Nat)
  decode_console_logs : List Nat → List String

/-- One invocation of the fuzz loop's closure (the body passed to
`runner.run`): run `single_fuzz`, then either record a `Case` (push gas,
set `first_case` once, replace traces, merge coverage — note the
`case.coverage.unwrap()`, which panics when the accumulator is non-empty but
the case carries no coverage, modelled as `none`), or overwrite the
counterexample slot and report `fail` with the decoded revert reason, or
propagate the test-case error.  The second component is what the external
runner sees (`none` models `Ok(())`). -/
def fuzz_step (env : FuzzEnv) (address : Nat) (should_fail : Bool)
    (s : LoopState) (calldata : Bytes) :
    Option (LoopState × Option TestCaseError) :=
  match single_fuzz env.executor env.sender env.config s.fuzz_state address should_fail calldata with
  | (st, Except.error e) => some ({ s with fuzz_state := st }, some e)
  | (st, Except.ok (FuzzOutcome.Case c)) =>
    let s := { s with fuzz_state := st }
    let gas := s.gas_by_case ++ [(c.case.gas, c.case.stipend)]
    let first := match s.first_case with
      | none => some c.case
      | some f => some f
    match s.coverage with
    | some prev =>
      match c.coverage with
      | none => none
      | some cov =>
        some ({ s with gas_by_case := gas, first_case := first, traces := c.traces,
                       coverage := some (HitMaps.merge prev cov) }, none)
    | none =>
      some ({ s with gas_by_case := gas, first_case := first, traces := c.traces,
                     coverage := c.coverage }, none)
  | (st, Except.ok (FuzzOutcome.CounterExample ce)) =>
    let s := { s with fuzz_state := st }
    let reason := (env.decode_revert ce.counterexample.2.result ce.exit_reason).getD ""
    some ({ s with counterexample := ce.counterexample },
          some (TestCaseError.fail reason))

/-- The loop state at session start: every `RefCell` holds its default. -/
def initLoopState (fuzz_state : List Nat) : LoopState :=
  { first_case := none, gas_by_case := [], counterexample := ([], RawCallResult.default),
    traces := none, coverage := none, fuzz_state := fuzz_state }

/-- The external runner drives the closure once per iteration, in order; a
per-iteration test-case error does not stop it (rejects draw again, fails
begin shrinking).  `none` propagates a panic inside the closure. -/
def run_iterations (env : FuzzEnv) (address : Nat) (should_fail : Bool) :
    LoopState → List Bytes → Option LoopState
  | s, [] => some s
  | s, c :: rest =>
    match fuzz_step env address should_fail s c with
    | none => none
    | some (s', _) => run_iterations env address should_fail s' rest

/-- `proptest::TestError`: the runner's final verdict when it did not
succeed.  `Fail` carries the reason and the runner's final (shrunk) input. -/
inductive TestError where
  | Abort (reason : String)
  | Fail (reason : String) (final_input : Bytes)
  deriving Repr, DecidableEq

/-- `BaseCounterExample`. -/
structure BaseCounterExample where
  sender : Option Nat
  addr : Option Nat
  calldata : Bytes
  signature : Option String
  contract_name : Option String
  traces : Option Nat
  args : List Nat
  deriving Repr, DecidableEq

/-- `CounterExample`: a single call or a sequence (invariant tests). -/
inductive CounterExample where
  | Single (c : BaseCounterExample)
  | Sequence (cs : List BaseCounterExample)
  deriving Repr, DecidableEq

/-- `FuzzTestResult` (labelled addresses as an association list). -/
structure FuzzTestResult where
  first_case : FuzzCase
  gas_by_case : List (Nat × Nat)
  success : Bool
  reason : Option String
  counterexample : Option CounterExample
  logs : List Nat
  decoded_logs : List String
  labeled_addresses : List (Nat × String)
  traces : Option Nat
  coverage : Option HitMaps
  deriving Repr, DecidableEq

/-- The end-of-session reduction of `FuzzedExecutor::fuzz` (everything after
`runner.run` returns): destructure the counterexample slot, build the base
result, then patch `reason` and `counterexample` according to the runner's
verdict.  In the `Fail` arm the Rust slices `calldata.as_ref()[4..]`, which
panics when the stored calldata is shorter than 4 bytes (modelled as
`none`); the runner's reported final input is ignored. -/
def fuzz_end (env : FuzzEnv) (s : LoopState) (run_result : Option TestError)
    (max_global_rejects : Nat) : Option FuzzTestResult :=
  let calldata := s.counterexample.1
  let call := s.counterexample.2
  let base : FuzzTestResult :=
    { first_case := s.first_case.getD FuzzCase.default,
      gas_by_case := s.gas_by_case,
      success := run_result.isNone,
      reason := none,
      counterexample := none,
      decoded_logs := env.decode_console_logs call.logs,
      logs := call.logs,
      labeled_addresses := call.labels,
      traces := if run_result.isNone then s.traces else call.traces,
      coverage := s.coverage }
  match run_result with
  | none => some base
  | some (TestError.Abort reason) =>
    if reason = "Too many global rejects" then
      some { base with reason := some (tooManyRejectsMsg max_global_rejects) }
    else
      some { base with reason := some reason }
  | some (TestError.Fail reason _) =>
    let rs := if reason = "" then none else some reason
    if 4 ≤ calldata.length then
      let args := (env.decode_input (calldata.drop 4)).getD []
      some { base with reason := rs,
                       counterexample := some (CounterExample.Single
                         { sender := none, addr := none, calldata := calldata,
                           signature := none, contract_name := none,
                           traces := call.traces, args := args }) }
    else
      none

/-- A whole fuzz session: the loop driven over the runner's input sequence
from the initial state, then the end-of-session reduction under the runner's
verdict. -/
def fuzz_session (env : FuzzEnv) (address : Nat) (should_fail : Bool)
    (init_state : List Nat) (inputs : List Bytes) (run_result : Option TestError)
    (max_global_rejects : Nat) : Option FuzzTestResult :=
  match run_iterations env address should_fail (initLoopState init_state) inputs with
  | none => none
  | some s => fuzz_end env s run_result max_global_rejects

/-- Tag for the two sub-strategies of the weighted union. -/
inductive StratSrc where
  | uniform
  | dict
  deriving Repr, DecidableEq

/-- The weighted strategy union built at the top of `FuzzedExecutor::fuzz`:
clamp the configured weight to 100, push the uniform ABI strategy (weight
`100 - clamped`) only when the raw weight is below 100, push the
dictionary-biased strategy (weight equal to the raw configured value) only
when the clamped weight is positive. -/
def build_weights (raw_weight : Nat) : List (Nat × StratSrc) :=
  let dictionary_weight := min raw_weight 100
  (if raw_weight < 100 then [(100 - dictionary_weight, StratSrc.uniform)] else []) ++
  (if dictionary_weight > 0 then [(raw_weight, StratSrc.dict)] else [])

/-- Ordering of fuzz cases by the sort key of `FuzzedCases::new`. -/
def gasLe (a b : FuzzCase) : Prop := a.gas ≤ b.gas

instance : DecidableRel gasLe := fun a b => Nat.decLe a.gas b.gas

instance : IsTotal FuzzCase gasLe := ⟨fun a b => Nat.le_total a.gas b.gas⟩

instance : IsTrans FuzzCase gasLe := ⟨fun _ _ _ h h' => Nat.le_trans h h'⟩

/-- `FuzzedCases`: the container of all successful cases. -/
structure FuzzedCases where
  cases : List FuzzCase
  deriving Repr, DecidableEq

/-- `FuzzedCases::new`: sort the cases by gas (Rust `sort_by_key` is a stable
ascending sort, modelled by stable insertion sort). -/
def FuzzedCases.new (cases : List FuzzCase) : FuzzedCases :=
  { cases := List.insertionSort gasLe cases }

/-- `FuzzedCases::highest`: the last (largest-gas) case. -/
def FuzzedCases.highest (f : FuzzedCases) : Option FuzzCase := f.cases.getLast?

/-- `FuzzedCases::lowest`: the first (smallest-gas) case. -/
def FuzzedCases.lowest (f : FuzzedCases) : Option FuzzCase := f.cases.head?

/-- `FuzzedCases::highest_gas`: gas of the highest case, minus its stipend
when `with_stipend` is false (non-saturating subtraction in the source);
zero on an empty collection. -/
def FuzzedCases.highest_gas (f : FuzzedCases) (with_stipend : Bool) : Nat :=
  (f.highest.map (fun c => if with_stipend then c.gas else c.gas - c.stipend)).getD 0

/-- `FuzzedCases::lowest_gas`: raw gas of the lowest case; zero on empty. -/
def FuzzedCases.lowest_gas (f : FuzzedCases) : Nat :=
  (f.lowest.map FuzzCase.gas).getD 0

deriving instance DecidableEq for Except

/-- The ordered list of writes to the counterexample slot performed while the
runner drives `inputs` from loop state `s`: one entry per `CounterExample`
outcome, in delivery order (cut short at a panic, which `run_iterations`
surfaces as `none` anyway). -/
def slot_writes (env : FuzzEnv) (address : Nat) (should_fail : Bool) :
    LoopState → List Bytes → List (Bytes × RawCallResult)
  | _, [] => []
  | s, c :: rest =>
    match fuzz_step env address should_fail s c with
    | none => []
    | some (s', _) =>
      match (single_fuzz env.executor env.sender env.config s.fuzz_state address should_fail c).2 with
      | Except.ok (FuzzOutcome.CounterExample ce) =>
        ce.counterexample :: slot_writes env address should_fail s' rest
      | _ => slot_writes env address should_fail s' rest

/-- A raw call result that reverts (no assume sentinel), with a changeset,
one log record and a trace: drives the counterexample path. -/
def callRevert : RawCallResult :=
  { RawCallResult.default with
    result := [1],
    reverted := true,
    exit_reason := 2,
    logs := [5],
    state_changeset := some [],
    traces := some 9 }

/-- An environment whose executor classifies every call as a failure. -/
def envAlwaysFails : FuzzEnv :=
  { executor := { call_raw := fun _ _ _ _ => some callRevert,
                  is_success := fun _ _ _ _ => false },
    sender := 0, config := { dictionary_weight := 40 },
    decode_revert := fun _ _ => some "boom",
    decode_input := fun b => some b,
    decode_console_logs := fun l => l.map toString }

/-- The counterexample outcome produced by `envAlwaysFails` on input
`[1,1,1,1]`. -/
def ceFirstFail : CounterExampleOutcome :=
  { exit_reason := 2, counterexample := ([1, 1, 1, 1], callRevert), breakpoints := [] }

/-- A loop state whose counterexample slot holds `([1,1,1,1], callRevert)`. -/
def stateSlotWritten : LoopState :=
  { initLoopState [] with counterexample := ([1, 1, 1, 1], callRevert) }

/-- The loop state after `envAlwaysFails` processes `[1,1,1,1]` from the
initial state (slot written, log value 5 absorbed into the dictionary). -/
def stateAfterFirstFail : LoopState :=
  { first_case := none, gas_by_case := [], counterexample := ([1, 1, 1, 1], callRevert),
    traces := none, coverage := none, fuzz_state := [5] }

/-- The loop state after `envAlwaysFails` processes `[1,1,1,1]` then
`[2,2,2,2]`: the slot holds the second (last) failing calldata. -/
def stateAfterTwoFails : LoopState :=
  { first_case := none, gas_by_case := [], counterexample := ([2, 2, 2, 2], callRevert),
    traces := none, coverage := none, fuzz_state := [5] }

/-- The decoded counter-example assembled from a slot holding calldata
`[1,1,1,1]` and `callRevert`. -/
def bSlotFail : BaseCounterExample :=
  { sender := none, addr := none, calldata := [1, 1, 1, 1], signature := none,
    contract_name := none, traces := some 9, args := [] }

/-- The decoded counter-example assembled from a slot holding calldata
`[2,2,2,2]` and `callRevert`. -/
def bLastFail : BaseCounterExample :=
  { sender := none, addr := none, calldata := [2, 2, 2, 2], signature := none,
    contract_name := none, traces := some 9, args := [] }

/-- The fuzz result of the end-of-session reduction over `stateSlotWritten`
under a `Fail` verdict with reason "boom". -/
def rFailSlot : FuzzTestResult :=
  { first_case := FuzzCase.default, gas_by_case := [], success := false,
    reason := some "boom", counterexample := some (CounterExample.Single bSlotFail),
    logs := [5], decoded_logs := ["5"], labeled_addresses := [], traces := some 9,
    coverage := none }

/-- The fuzz result of the two-failure session under `envAlwaysFails`. -/
def rSessionTwoFails : FuzzTestResult :=
  { first_case := FuzzCase.default, gas_by_case := [], success := false,
    reason := some "boom", counterexample := some (CounterExample.Single bLastFail),
    logs := [5], decoded_logs := ["5"], labeled_addresses := [], traces := some 9,
    coverage := none }

/-- A raw call result of a successful run carrying a log record, gas data
and a trace. -/
def callCase : RawCallResult :=
  { RawCallResult.default with
    state_changeset := some [],
    gas_used := 5,
    stipend := 2,
    traces := some 3,
    logs := [7] }

/-- An environment whose executor classifies every call as a success. -/
def envAlwaysSucceeds : FuzzEnv :=
  { executor := { call_raw := fun _ _ _ _ => some callCase,
                  is_success := fun _ _ _ _ => true },
    sender := 0, config := { dictionary_weight := 40 },
    decode_revert := fun _ _ => none,
    decode_input := fun b => some b,
    decode_console_logs := fun l => l.map toString }

/-- The fuzz result of a one-case successful session under
`envAlwaysSucceeds`: note the empty `logs` although the case's call carried
log record 7. -/
def rSuccessSession : FuzzTestResult :=
  { first_case := { calldata := [1, 1, 1, 1], gas := 5, stipend := 2 },
    gas_by_case := [(5, 2)], success := true, reason := none, counterexample := none,
    logs := [], decoded_logs := [], labeled_addresses := [], traces := some 3,
    coverage := none }

/-- The fuzz result of the end-of-session reduction over `stateSlotWritten`
under a success verdict: the logs come from the slot's raw result. -/
def rSlotLogsSuccess : FuzzTestResult :=
  { first_case := FuzzCase.default, gas_by_case := [], success := true,
    reason := none, counterexample := none, logs := [5], decoded_logs := ["5"],
    labeled_addresses := [], traces := none, coverage := none }

/-- A raw call result with no state changeset (misconfigured executor). -/
def callNoChangeset : RawCallResult :=
  { RawCallResult.default with reverted := true }

/-- An environment whose executor never returns a state changeset. -/
def envNoChangeset : FuzzEnv :=
  { executor := { call_raw := fun _ _ _ _ => some callNoChangeset,
                  is_success := fun _ _ _ _ => true },
    sender := 0, config := { dictionary_weight := 40 },
    decode_revert := fun _ _ => none,
    decode_input := fun b => some b,
    decode_console_logs := fun l => l.map toString }

/-- A successful raw call result carrying no coverage map. -/
def callCaseNoCov : RawCallResult :=
  { RawCallResult.default with state_changeset := some [], gas_used := 5, stipend := 2 }

/-- An environment whose executor returns successful calls without coverage. -/
def envCaseNoCoverage : FuzzEnv :=
  { executor := { call_raw := fun _ _ _ _ => some callCaseNoCov,
                  is_success := fun _ _ _ _ => true },
    sender := 0, config := { dictionary_weight := 40 },
    decode_revert := fun _ _ => none,
    decode_input := fun b => some b,
    decode_console_logs := fun l => l.map toString }

/-- A loop state whose coverage accumulator is already non-empty. -/
def stateWithCoverage : LoopState :=
  { initLoopState [] with coverage := some [(0, 1)] }

/-- A raw call result whose return bytes are exactly the assume sentinel. -/
def callAssume : RawCallResult :=
  { RawCallResult.default with
    state_changeset := some [],
    result := ASSUME_MAGIC_RETURN_CODE }

/-- An environment whose executor triggers the assume sentinel on every call. -/
def envAssume : FuzzEnv :=
  { executor := { call_raw := fun _ _ _ _ => some callAssume,
                  is_success := fun _ _ _ _ => true },
    sender := 0, config := { dictionary_weight := 40 },
    decode_revert := fun _ _ => none,
    decode_input := fun b => some b,
    decode_console_logs := fun l => l.map toString }

/-- When `single_fuzz` surfaces a test-case error, the loop's closure only
propagates it: every session cell except the shared dictionary is untouched. -/
lemma fuzz_step_of_error (env : FuzzEnv) (a : Nat) (sf : Bool) (s : LoopState) (c : Bytes)
    (st : List Nat) (e : TestCaseError)
    (h : single_fuzz env.executor env.sender env.config s.fuzz_state a sf c
      = (st, Except.error e)) :
    fuzz_step env a sf s c = some ({ s with fuzz_state := st }, some e) := by
  unfold fuzz_step
  rw [h]

/-- When `single_fuzz` returns a `CounterExample`, the closure overwrites the
slot with the outcome's (calldata, raw result) pair and reports `fail` with
the decoded revert reason. -/
lemma fuzz_step_of_counterexample (env : FuzzEnv) (a : Nat) (sf : Bool) (s : LoopState)
    (c : Bytes) (st : List Nat) (ce : CounterExampleOutcome)
    (h : single_fuzz env.executor env.sender env.config s.fuzz_state a sf c
      = (st, Except.ok (FuzzOutcome.CounterExample ce))) :
    fuzz_step env a sf s c =
      some ({ s with fuzz_state := st, counterexample := ce.counterexample },
            some (TestCaseError.fail
              ((env.decode_revert ce.counterexample.2.result ce.exit_reason).getD ""))) := by
  unfold fuzz_step
  rw [h]

/-- When `single_fuzz` returns a `Case` and the closure does not panic, the
counterexample slot is untouched, the closure reports `Ok` to the runner,
and the case's gas pair is appended. -/
lemma fuzz_step_of_case (env : FuzzEnv) (a : Nat) (sf : Bool) (s s' : LoopState)
    (c : Bytes) (st : List Nat) (co : CaseOutcome) (e : Option TestCaseError)
    (h : single_fuzz env.executor env.sender env.config s.fuzz_state a sf c
      = (st, Except.ok (FuzzOutcome.Case co)))
    (h' : fuzz_step env a sf s c = some (s', e)) :
    s'.counterexample = s.counterexample ∧ e = none
    ∧ s'.gas_by_case = s.gas_by_case ++ [(co.case.gas, co.case.stipend)] := by
  unfold fuzz_step at h'
  rw [h] at h'
  dsimp only at h'
  cases hcov : s.coverage with
  | none =>
    rw [hcov] at h'
    dsimp only at h'
    rw [Option.some.injEq, Prod.mk.injEq] at h'
    obtain ⟨hA, hB⟩ := h'
    exact ⟨by rw [← hA], hB.symm, by rw [← hA]⟩
  | some prev =>
    rw [hcov] at h'
    dsimp only at h'
    cases hc : co.coverage with
    | none => rw [hc] at h'; cases h'
    | some cov =>
      rw [hc] at h'
      dsimp only at h'
      rw [Option.some.injEq, Prod.mk.injEq] at h'
      obtain ⟨hA, hB⟩ := h'
      exact ⟨by rw [← hA], hB.symm, by rw [← hA]⟩

/-- Closed form of the end-of-session reduction under a `Fail` verdict: the
result is assembled from the slot (and panics when the stored calldata is
shorter than the selector), with the runner's final input nowhere used. -/
lemma fuzz_end_fail_eq (env : FuzzEnv) (s : LoopState) (reason : String) (fi : Bytes)
    (mgr : Nat) :
    fuzz_end env s (some (TestError.Fail reason fi)) mgr =
      if 4 ≤ s.counterexample.1.length then
        some { first_case := s.first_case.getD FuzzCase.default,
               gas_by_case := s.gas_by_case,
               success := false,
               reason := if reason = "" then none else some reason,
               counterexample := some (CounterExample.Single
                 { sender := none, addr := none, calldata := s.counterexample.1,
                   signature := none, contract_name := none,
                   traces := s.counterexample.2.traces,
                   args := (env.decode_input (s.counterexample.1.drop 4)).getD [] }),
               logs := s.counterexample.2.logs,
               decoded_logs := env.decode_console_logs s.counterexample.2.logs,
               labeled_addresses := s.counterexample.2.labels,
               traces := s.counterexample.2.traces,
               coverage := s.coverage }
      else none := rfl

/-- Fields of the result that every verdict arm of the end-of-session
reduction takes verbatim from the loop state and the slot. -/
lemma fuzz_end_base_fields (env : FuzzEnv) (s : LoopState) (rr : Option TestError)
    (mgr : Nat) (r : FuzzTestResult) (h : fuzz_end env s rr mgr = some r) :
    r.first_case = s.first_case.getD FuzzCase.default
    ∧ r.gas_by_case = s.gas_by_case
    ∧ r.logs = s.counterexample.2.logs
    ∧ r.decoded_logs = env.decode_console_logs s.counterexample.2.logs
    ∧ r.labeled_addresses = s.counterexample.2.labels
    ∧ r.coverage = s.coverage
    ∧ r.success = rr.isNone := by
  cases rr with
  | none =>
    unfold fuzz_end at h
    rw [Option.some.injEq] at h
    subst h
    exact ⟨rfl, rfl, rfl, rfl, rfl, rfl, rfl⟩
  | some te =>
    cases te with
    | Abort reason =>
      unfold fuzz_end at h
      dsimp only at h
      by_cases hr : reason = "Too many global rejects"
      · rw [if_pos hr, Option.some.injEq] at h
        subst h
        exact ⟨rfl, rfl, rfl, rfl, rfl, rfl, rfl⟩
      · rw [if_neg hr, Option.some.injEq] at h
        subst h
        exact ⟨rfl, rfl, rfl, rfl, rfl, rfl, rfl⟩
    | Fail reason fi =>
      rw [fuzz_end_fail_eq] at h
      by_cases hl : 4 ≤ s.counterexample.1.length
      · rw [if_pos hl, Option.some.injEq] at h
        subst h
        exact ⟨rfl, rfl, rfl, rfl, rfl, rfl, rfl⟩
      · rw [if_neg hl] at h
        cases h

/-- C1: when the external runner returns `Fail`, the counter-example in the
`FuzzTestResult` is built from the loop's counterexample slot — its calldata
and traces are the slot's `(calldata, raw_result)` pair — and not from the
final input the runner reports (replacing that input leaves the result
unchanged); moreover the slot is overwritten with the outcome's pair on
every `CounterExample` the closure observes. -/
theorem counterexample_built_from_slot
    (env : FuzzEnv) (s : LoopState) (reason : String) (i₁ i₂ : Bytes) (mgr : Nat)
    (r : FuzzTestResult)
    (hend : fuzz_end env s (some (TestError.Fail reason i₁)) mgr = some r)
    (a : Nat) (sf : Bool) (ls ls' : LoopState) (c : Bytes) (st2 : List Nat)
    (ceo : CounterExampleOutcome) (e : Option TestCaseError)
    (hsf : single_fuzz env.executor env.sender env.config ls.fuzz_state a sf c
      = (st2, Except.ok (FuzzOutcome.CounterExample ceo)))
    (hstep : fuzz_step env a sf ls c = some (ls', e)) :
    fuzz_end env s (some (TestError.Fail reason i₂)) mgr = some r
    ∧ (∃ b, r.counterexample = some (CounterExample.Single b)
        ∧ b.calldata = s.counterexample.1 ∧ b.traces = s.counterexample.2.traces)
    ∧ ls'.counterexample = ceo.counterexample := by
  rw [fuzz_end_fail_eq] at hend
  rw [fuzz_end_fail_eq]
  have hslot : ls'.counterexample = ceo.counterexample := by
    rw [fuzz_step_of_counterexample env a sf ls c st2 ceo hsf] at hstep
    rw [Option.some.injEq, Prod.mk.injEq] at hstep
    rw [← hstep.1]
  by_cases hl : 4 ≤ s.counterexample.1.length
  · rw [if_pos hl] at hend ⊢
    rw [Option.some.injEq] at hend
    subst hend
    exact ⟨rfl, ⟨_, rfl, rfl, rfl⟩, hslot⟩
  · rw [if_neg hl] at hend
    cases hend

/-- C1 witness: a concrete loop state whose slot holds `([1,1,1,1],
callRevert)`, reduced under two different runner-reported final inputs, and
a concrete iteration whose `CounterExample` outcome overwrites the slot. -/
theorem counterexample_built_from_slot_witness :
    fuzz_end envAlwaysFails stateSlotWritten (some (TestError.Fail "boom" [2, 2, 2, 2])) 65536
      = some rFailSlot
    ∧ single_fuzz envAlwaysFails.executor envAlwaysFails.sender envAlwaysFails.config
        (initLoopState []).fuzz_state 7 false [1, 1, 1, 1]
      = ([5], Except.ok (FuzzOutcome.CounterExample ceFirstFail))
    ∧ fuzz_step envAlwaysFails 7 false (initLoopState []) [1, 1, 1, 1]
      = some (stateAfterFirstFail, some (TestCaseError.fail "boom"))
    ∧ (fuzz_end envAlwaysFails stateSlotWritten (some (TestError.Fail "boom" [3, 3, 3, 3])) 65536
        = some rFailSlot
      ∧ (∃ b, rFailSlot.counterexample = some (CounterExample.Single b)
          ∧ b.calldata = stateSlotWritten.counterexample.1
          ∧ b.traces = stateSlotWritten.counterexample.2.traces)
      ∧ stateAfterFirstFail.counterexample = ceFirstFail.counterexample) :=
  ⟨by decide, by decide, by decide,
    counterexample_built_from_slot envAlwaysFails stateSlotWritten "boom"
      [2, 2, 2, 2] [3, 3, 3, 3] 65536 rFailSlot (by decide)
      7 false (initLoopState []) stateAfterFirstFail [1, 1, 1, 1] [5]
      ceFirstFail (some (TestCaseError.fail "boom")) (by decide) (by decide)⟩

/-- The counterexample slot after driving the loop is the LAST write of the
session (or the starting slot when no `CounterExample` was observed). -/
lemma run_iterations_slot (env : FuzzEnv) (a : Nat) (sf : Bool) :
    ∀ (inputs : List Bytes) (s s' : LoopState),
      run_iterations env a sf s inputs = some s' →
      s'.counterexample = (slot_writes env a sf s inputs).getLastD s.counterexample := by
  intro inputs
  induction inputs with
  | nil =>
    intro s s' h
    unfold run_iterations at h
    rw [Option.some.injEq] at h
    subst h
    rfl
  | cons c rest ih =>
    intro s s' h
    unfold run_iterations at h
    cases hstep : fuzz_step env a sf s c with
    | none => rw [hstep] at h; cases h
    | some p =>
      obtain ⟨s₁, e⟩ := p
      rw [hstep] at h
      dsimp only at h
      have hrec := ih s₁ s' h
      unfold slot_writes
      rw [hstep]
      dsimp only
      rcases hsf : single_fuzz env.executor env.sender env.config s.fuzz_state a sf c with ⟨st, res⟩
      cases res with
      | error e' =>
        have hs₁ := fuzz_step_of_error env a sf s c st e' hsf
        rw [hs₁, Option.some.injEq, Prod.mk.injEq] at hstep
        dsimp only
        rw [hrec, ← hstep.1]
      | ok out =>
        cases out with
        | Case co =>
          have hpres := fuzz_step_of_case env a sf s s₁ c st co e hsf hstep
          dsimp only
          rw [hrec, hpres.1]
        | CounterExample ce =>
          have hs₁ := fuzz_step_of_counterexample env a sf s c st ce hsf
          rw [hs₁, Option.some.injEq, Prod.mk.injEq] at hstep
          dsimp only
          rw [List.getLastD_cons, hrec, ← hstep.1]

/-- C2 counterexample: under `envAlwaysFails`, the first failing iteration of
the two-input session has calldata `[1,1,1,1]`, yet the reported
counter-example calldata is `[2,2,2,2]` — the LAST failing iteration, not the
first. -/
theorem reported_calldata_not_first_failing :
    (single_fuzz envAlwaysFails.executor envAlwaysFails.sender envAlwaysFails.config
        (initLoopState []).fuzz_state 7 false [1, 1, 1, 1]).2
      = Except.ok (FuzzOutcome.CounterExample ceFirstFail)
    ∧ ceFirstFail.counterexample.1 = [1, 1, 1, 1]
    ∧ fuzz_session envAlwaysFails 7 false [] [[1, 1, 1, 1], [2, 2, 2, 2]]
        (some (TestError.Fail "boom" [2, 2, 2, 2])) 65536 = some rSessionTwoFails
    ∧ rSessionTwoFails.counterexample = some (CounterExample.Single bLastFail)
    ∧ bLastFail.calldata = [2, 2, 2, 2]
    ∧ ([2, 2, 2, 2] : Bytes) ≠ [1, 1, 1, 1] := by
  refine ⟨by decide, by decide, by decide, by decide, by decide, by decide⟩

/-- C2 amended: the reported counter-example calldata is the calldata of the
LAST failing iteration observed by the loop (the slot's last write; the slot
itself when no write happened), never the final input the runner reports. -/
theorem counterexample_calldata_is_last_failing
    (env : FuzzEnv) (a : Nat) (sf : Bool) (st₀ : List Nat) (inputs : List Bytes)
    (s : LoopState) (reason : String) (fi : Bytes) (mgr : Nat) (r : FuzzTestResult)
    (hrun : run_iterations env a sf (initLoopState st₀) inputs = some s)
    (hend : fuzz_end env s (some (TestError.Fail reason fi)) mgr = some r) :
    ∃ b, r.counterexample = some (CounterExample.Single b)
      ∧ b.calldata = ((slot_writes env a sf (initLoopState st₀) inputs).getLastD
          (initLoopState st₀).counterexample).1 := by
  have hslot := run_iterations_slot env a sf inputs (initLoopState st₀) s hrun
  rw [fuzz_end_fail_eq] at hend
  by_cases hl : 4 ≤ s.counterexample.1.length
  · rw [if_pos hl, Option.some.injEq] at hend
    subst hend
    exact ⟨_, rfl, by rw [← hslot]⟩
  · rw [if_neg hl] at hend
    cases hend

/-- C2 amended witness: the two-failure session under `envAlwaysFails`, whose
slot-write trace is `[([1,1,1,1], callRevert), ([2,2,2,2], callRevert)]`. -/
theorem counterexample_calldata_is_last_failing_witness :
    run_iterations envAlwaysFails 7 false (initLoopState []) [[1, 1, 1, 1], [2, 2, 2, 2]]
      = some stateAfterTwoFails
    ∧ fuzz_end envAlwaysFails stateAfterTwoFails
        (some (TestError.Fail "boom" [2, 2, 2, 2])) 65536 = some rSessionTwoFails
    ∧ (∃ b, rSessionTwoFails.counterexample = some (CounterExample.Single b)
        ∧ b.calldata = ((slot_writes envAlwaysFails 7 false (initLoopState [])
            [[1, 1, 1, 1], [2, 2, 2, 2]]).getLastD
              (initLoopState []).counterexample).1) :=
  ⟨by decide, by decide,
    counterexample_calldata_is_last_failing envAlwaysFails 7 false []
      [[1, 1, 1, 1], [2, 2, 2, 2]] stateAfterTwoFails "boom" [2, 2, 2, 2] 65536
      rSessionTwoFails (by decide) (by decide)⟩

/-- C3: an iteration whose raw return bytes equal `ASSUME_MAGIC_RETURN_CODE`
(after the changeset check) surfaces the reject error "assume rejected";
this is the only path producing a reject; and a rejected iteration leaves
`gas_by_case`, the counterexample slot and `first_case` untouched. -/
theorem assume_reject_only_path
    (exec : Executor) (sender : Nat) (config : FuzzDictionaryConfig) (st : List Nat)
    (a : Nat) (sf : Bool) (c : Bytes) (call : RawCallResult) (cs : List (Nat × Nat))
    (h₁ : exec.call_raw sender a c 0 = some call)
    (h₂ : call.state_changeset = some cs)
    (h₃ : call.result = ASSUME_MAGIC_RETURN_CODE)
    (env : FuzzEnv) (a₂ : Nat) (sf₂ : Bool) (ls ls' : LoopState) (c₂ : Bytes) (r₂ : String)
    (h₄ : fuzz_step env a₂ sf₂ ls c₂ = some (ls', some (TestCaseError.reject r₂))) :
    (single_fuzz exec sender config st a sf c).2
      = Except.error (TestCaseError.reject assumeRejectedMsg)
    ∧ (∀ (st₃ : List Nat) (a₃ : Nat) (sf₃ : Bool) (c₃ : Bytes) (r₃ : String),
        (single_fuzz exec sender config st₃ a₃ sf₃ c₃).2
          = Except.error (TestCaseError.reject r₃) →
        r₃ = assumeRejectedMsg ∧ ∃ call₃ cs₃, exec.call_raw sender a₃ c₃ 0 = some call₃
          ∧ call₃.state_changeset = some cs₃
          ∧ call₃.result = ASSUME_MAGIC_RETURN_CODE)
    ∧ ls'.gas_by_case = ls.gas_by_case ∧ ls'.counterexample = ls.counterexample
    ∧ ls'.first_case = ls.first_case := by
  have hmain : (single_fuzz exec sender config st a sf c).2
      = Except.error (TestCaseError.reject assumeRejectedMsg) := by
    unfold single_fuzz
    rw [h₁]
    dsimp only
    rw [h₂]
    dsimp only
    rw [if_pos h₃]
  have honly : ∀ (st₃ : List Nat) (a₃ : Nat) (sf₃ : Bool) (c₃ : Bytes) (r₃ : String),
      (single_fuzz exec sender config st₃ a₃ sf₃ c₃).2
        = Except.error (TestCaseError.reject r₃) →
      r₃ = assumeRejectedMsg ∧ ∃ call₃ cs₃, exec.call_raw sender a₃ c₃ 0 = some call₃
        ∧ call₃.state_changeset = some cs₃
        ∧ call₃.result = ASSUME_MAGIC_RETURN_CODE := by
    intro st₃ a₃ sf₃ c₃ r₃ h
    unfold single_fuzz at h
    cases hcr : exec.call_raw sender a₃ c₃ 0 with
    | none => rw [hcr] at h; dsimp only at h; cases h
    | some call₃ =>
      rw [hcr] at h
      dsimp only at h
      cases hcs : call₃.state_changeset with
      | none => rw [hcs] at h; dsimp only at h; cases h
      | some cs₃ =>
        rw [hcs] at h
        dsimp only at h
        by_cases hm : call₃.result = ASSUME_MAGIC_RETURN_CODE
        · rw [if_pos hm] at h
          dsimp only at h
          rw [Except.error.injEq, TestCaseError.reject.injEq] at h
          exact ⟨h.symm, call₃, cs₃, rfl, hcs, hm⟩
        · rw [if_neg hm] at h
          by_cases hs : exec.is_success a₃ call₃.reverted cs₃ sf₃
          · rw [if_pos hs] at h; cases h
          · rw [if_neg hs] at h; cases h
  have hpres : ls'.gas_by_case = ls.gas_by_case ∧ ls'.counterexample = ls.counterexample
      ∧ ls'.first_case = ls.first_case := by
    rcases hsf : single_fuzz env.executor env.sender env.config ls.fuzz_state a₂ sf₂ c₂
      with ⟨st', res⟩
    cases res with
    | error e' =>
      rw [fuzz_step_of_error env a₂ sf₂ ls c₂ st' e' hsf, Option.some.injEq,
        Prod.mk.injEq] at h₄
      rw [← h₄.1]
      exact ⟨rfl, rfl, rfl⟩
    | ok out =>
      cases out with
      | Case co =>
        obtain ⟨-, he, -⟩ := fuzz_step_of_case env a₂ sf₂ ls ls' c₂ st' co
          (some (TestCaseError.reject r₂)) hsf h₄
        cases he
      | CounterExample ce =>
        rw [fuzz_step_of_counterexample env a₂ sf₂ ls c₂ st' ce hsf, Option.some.injEq,
          Prod.mk.injEq] at h₄
        cases h₄.2
  exact ⟨hmain, honly, hpres⟩

/-- C3 witness: the assume-sentinel executor on a concrete iteration, and the
concrete rejected step leaving the loop state's cells unchanged. -/
theorem assume_reject_only_path_witness :
    envAssume.executor.call_raw 0 7 [1, 1, 1, 1] 0 = some callAssume
    ∧ callAssume.state_changeset = some []
    ∧ callAssume.result = ASSUME_MAGIC_RETURN_CODE
    ∧ fuzz_step envAssume 7 false (initLoopState []) [1, 1, 1, 1]
      = some (initLoopState [], some (TestCaseError.reject assumeRejectedMsg))
    ∧ ((single_fuzz envAssume.executor 0 envAssume.config [] 7 false [1, 1, 1, 1]).2
        = Except.error (TestCaseError.reject assumeRejectedMsg)
      ∧ (∀ (st₃ : List Nat) (a₃ : Nat) (sf₃ : Bool) (c₃ : Bytes) (r₃ : String),
          (single_fuzz envAssume.executor 0 envAssume.config st₃ a₃ sf₃ c₃).2
            = Except.error (TestCaseError.reject r₃) →
          r₃ = assumeRejectedMsg ∧ ∃ call₃ cs₃,
            envAssume.executor.call_raw 0 a₃ c₃ 0 = some call₃
            ∧ call₃.state_changeset = some cs₃
            ∧ call₃.result = ASSUME_MAGIC_RETURN_CODE)
      ∧ (initLoopState []).gas_by_case = (initLoopState []).gas_by_case
      ∧ (initLoopState []).counterexample = (initLoopState []).counterexample
      ∧ (initLoopState []).first_case = (initLoopState []).first_case) :=
  ⟨by decide, by decide, by decide, by decide,
    assume_reject_only_path envAssume.executor 0 envAssume.config [] 7 false
      [1, 1, 1, 1] callAssume [] (by decide) (by decide) (by decide)
      envAssume 7 false (initLoopState []) (initLoopState []) [1, 1, 1, 1]
      assumeRejectedMsg (by decide)⟩

/-- C4: whenever the raw call result carries a state changeset, the
dictionary state `single_fuzz` hands back is `collect_state_from_call` over
the call's logs and changeset — on every path: assume-rejected, successful
and failing classifications alike (the absorb happens before the sentinel
check and before classification). -/
theorem dictionary_absorb_unconditional
    (exec : Executor) (sender : Nat) (config : FuzzDictionaryConfig) (st : List Nat)
    (a : Nat) (sf : Bool) (c : Bytes) (call : RawCallResult) (cs : List (Nat × Nat))
    (h₁ : exec.call_raw sender a c 0 = some call)
    (h₂ : call.state_changeset = some cs) :
    (single_fuzz exec sender config st a sf c).1
      = collect_state_from_call call.logs cs st config := by
  unfold single_fuzz
  rw [h₁]
  dsimp only
  rw [h₂]
  dsimp only
  by_cases hm : call.result = ASSUME_MAGIC_RETURN_CODE
  · rw [if_pos hm]
  · rw [if_neg hm]
    by_cases hs : exec.is_success a call.reverted cs sf
    · rw [if_pos hs]
    · rw [if_neg hs]

/-- C4 witness: the absorb happens even for an assume-rejected iteration —
the concrete call's log value 5 lands in the dictionary. -/
theorem dictionary_absorb_unconditional_witness :
    envAlwaysFails.executor.call_raw 0 7 [1, 1, 1, 1] 0 = some callRevert
    ∧ callRevert.state_changeset = some []
    ∧ (single_fuzz envAlwaysFails.executor 0 envAlwaysFails.config [] 7 false [1, 1, 1, 1]).1
      = collect_state_from_call callRevert.logs [] [] envAlwaysFails.config :=
  ⟨by decide, by decide,
    dictionary_absorb_unconditional envAlwaysFails.executor 0 envAlwaysFails.config []
      7 false [1, 1, 1, 1] callRevert [] (by decide) (by decide)⟩

/-- C5 (code bug): with an executor that never returns a state changeset,
every iteration does surface the fail error "empty changeset" — but the
end-of-session reduction does NOT complete: with the counterexample slot
never written, its default calldata is empty and the Rust `Fail` arm panics
slicing `calldata.as_ref()[4..]` (modelled as `none`), instead of returning a
result with `success = false` and reason "empty changeset". -/
theorem empty_changeset_fail_then_end_panics :
    (single_fuzz envNoChangeset.executor envNoChangeset.sender envNoChangeset.config
        [] 7 false [9, 9, 9, 9]).2
      = Except.error (TestCaseError.fail emptyChangesetMsg)
    ∧ (initLoopState []).counterexample.1 = []
    ∧ fuzz_session envNoChangeset 7 false [] [[9, 9, 9, 9]]
        (some (TestError.Fail emptyChangesetMsg [9, 9, 9, 9])) 65536 = none :=
  ⟨rfl, rfl, rfl⟩

/-- C7 (code bug): a `Case` outcome carrying no coverage map panics the loop
closure (`case.coverage.unwrap()`) whenever the coverage accumulator is
already non-empty, instead of leaving the accumulator unchanged. -/
theorem coverage_unwrap_panics :
    (single_fuzz envCaseNoCoverage.executor envCaseNoCoverage.sender
        envCaseNoCoverage.config stateWithCoverage.fuzz_state 7 false [1, 1, 1, 1]).2
      = Except.ok (FuzzOutcome.Case
          { case := { calldata := [1, 1, 1, 1], gas := 5, stipend := 2 },
            traces := none, coverage := none, breakpoints := [] })
    ∧ stateWithCoverage.coverage = some [(0, 1)]
    ∧ fuzz_step envCaseNoCoverage 7 false stateWithCoverage [1, 1, 1, 1] = none :=
  ⟨rfl, rfl, rfl⟩

/-- C8: the weighted strategy union omits the uniform sub-strategy entirely
at `dictionary_weight = 100`, omits the dictionary sub-strategy at
`dictionary_weight = 0`, and carries both with relative weights
`100 - dictionary_weight` and `dictionary_weight` strictly in between. -/
theorem weighted_union_boundary (w : Nat) (h₁ : 0 < w) (h₂ : w < 100) :
    build_weights 100 = [(100, StratSrc.dict)]
    ∧ build_weights 0 = [(100, StratSrc.uniform)]
    ∧ build_weights w = [(100 - w, StratSrc.uniform), (w, StratSrc.dict)] := by
  refine ⟨by decide, by decide, ?_⟩
  unfold build_weights
  rw [Nat.min_eq_left (Nat.le_of_lt h₂)]
  dsimp only
  rw [if_pos h₂, if_pos h₁]
  rfl

/-- C8 witness: the interior point `dictionary_weight = 50`. -/
theorem weighted_union_boundary_witness :
    0 < 50 ∧ 50 < 100
    ∧ (build_weights 100 = [(100, StratSrc.dict)]
      ∧ build_weights 0 = [(100, StratSrc.uniform)]
      ∧ build_weights 50 = [(100 - 50, StratSrc.uniform), (50, StratSrc.dict)]) :=
  ⟨by decide, by decide, weighted_union_boundary 50 (by decide) (by decide)⟩

/-- C6 counterexample: a session that succeeds after a single `Case` whose
raw call carried log record 7 reports EMPTY logs — the loop never stores a
successful run's logs, so the result's logs are the (default) counterexample
slot's logs, not the last successful run's. -/
theorem success_session_logs_not_last_case :
    fuzz_session envAlwaysSucceeds 7 false [] [[1, 1, 1, 1]] none 65536
      = some rSuccessSession
    ∧ rSuccessSession.success = true
    ∧ (envAlwaysSucceeds.executor.call_raw envAlwaysSucceeds.sender 7 [1, 1, 1, 1] 0).map
        RawCallResult.logs = some [7]
    ∧ rSuccessSession.logs = []
    ∧ ([] : List Nat) ≠ [7] := by
  refine ⟨by decide, by decide, by decide, by decide, by decide⟩

/-- C6 amended: the result's `logs` are the logs of the counterexample
slot's raw call result (the last failing run; empty when no `CounterExample`
outcome was ever observed), and `decoded_logs` is the console decoding of
those same logs — not the logs of the last successful case. -/
theorem logs_from_counterexample_slot
    (env : FuzzEnv) (s : LoopState) (rr : Option TestError) (mgr : Nat)
    (r : FuzzTestResult) (hend : fuzz_end env s rr mgr = some r) :
    r.logs = s.counterexample.2.logs
    ∧ r.decoded_logs = env.decode_console_logs s.counterexample.2.logs := by
  obtain ⟨-, -, hl, hd, -, -, -⟩ := fuzz_end_base_fields env s rr mgr r hend
  exact ⟨hl, hd⟩

/-- C6 amended witness: a successful verdict over a loop state whose slot
holds `callRevert` (logs `[5]`) reports exactly those logs. -/
theorem logs_from_counterexample_slot_witness :
    fuzz_end envAlwaysSucceeds stateSlotWritten none 0 = some rSlotLogsSuccess
    ∧ (rSlotLogsSuccess.logs = stateSlotWritten.counterexample.2.logs
      ∧ rSlotLogsSuccess.decoded_logs
        = envAlwaysSucceeds.decode_console_logs stateSlotWritten.counterexample.2.logs) :=
  ⟨by decide,
    logs_from_counterexample_slot envAlwaysSucceeds stateSlotWritten none 0
      rSlotLogsSuccess (by decide)⟩

/-- In a gas-sorted list, every element's gas is bounded by the last's. -/
lemma sorted_gasLe_le_getLast :
    ∀ (l : List FuzzCase), List.Sorted gasLe l →
      ∀ d, l.getLast? = some d → ∀ c ∈ l, c.gas ≤ d.gas := by
  intro l
  induction l with
  | nil => intro _ d hd; cases hd
  | cons x xs ih =>
    intro h d hd c hc
    cases xs with
    | nil =>
      have hx : x = d := by
        have : some x = some d := hd
        exact Option.some.inj this
      have hcx : c = x := by
        rcases List.mem_cons.mp hc with h' | h'
        · exact h'
        · cases h'
      rw [hcx, hx]
    | cons y ys =>
      rw [List.getLast?_cons_cons] at hd
      have hs := List.sorted_cons.mp h
      rcases List.mem_cons.mp hc with rfl | hmem
      · exact hs.1 d (List.mem_of_mem_getLast? hd)
      · exact ih hs.2 d hd c hmem

/-- In a gas-sorted list, the head's gas bounds every element's gas. -/
lemma sorted_gasLe_head_le (l : List FuzzCase) (h : List.Sorted gasLe l)
    (d : FuzzCase) (hd : l.head? = some d) : ∀ c ∈ l, d.gas ≤ c.gas := by
  cases l with
  | nil => cases hd
  | cons x xs =>
    have hx : x = d := Option.some.inj hd
    subst hx
    intro c hc
    rcases List.mem_cons.mp hc with rfl | hmem
    · exact Nat.le_refl _
    · exact (List.sorted_cons.mp h).1 c hmem

/-- C9: `FuzzedCases::new` sorts ascending by gas; `highest` is the last
(largest-gas) case and `lowest` the first (smallest-gas); when every case
satisfies `stipend ≤ gas`, `highest_gas false` is exactly the highest case's
gas minus its stipend and the subtraction cannot underflow; `lowest_gas`
returns the lowest case's raw gas; and on an empty collection both gas
queries return 0. -/
theorem fuzzed_cases_sorted_view (l : List FuzzCase)
    (hgs : ∀ cs ∈ l, cs.stipend ≤ cs.gas) :
    List.Sorted gasLe (FuzzedCases.new l).cases
    ∧ (FuzzedCases.new l).highest = (FuzzedCases.new l).cases.getLast?
    ∧ (FuzzedCases.new l).lowest = (FuzzedCases.new l).cases.head?
    ∧ (∀ c ∈ (FuzzedCases.new l).cases, ∀ hc,
        (FuzzedCases.new l).highest = some hc → c.gas ≤ hc.gas)
    ∧ (∀ c ∈ (FuzzedCases.new l).cases, ∀ lc,
        (FuzzedCases.new l).lowest = some lc → lc.gas ≤ c.gas)
    ∧ (∀ hc, (FuzzedCases.new l).highest = some hc →
        hc.stipend ≤ hc.gas
        ∧ (FuzzedCases.new l).highest_gas false = hc.gas - hc.stipend
        ∧ hc.gas - hc.stipend + hc.stipend = hc.gas)
    ∧ (∀ lc, (FuzzedCases.new l).lowest = some lc →
        (FuzzedCases.new l).lowest_gas = lc.gas)
    ∧ (FuzzedCases.new []).highest_gas false = 0
    ∧ (FuzzedCases.new []).highest_gas true = 0
    ∧ (FuzzedCases.new []).lowest_gas = 0 := by
  have hsorted : List.Sorted gasLe (FuzzedCases.new l).cases :=
    List.sorted_insertionSort gasLe l
  have hmem : ∀ c : FuzzCase, c ∈ (FuzzedCases.new l).cases → c ∈ l :=
    fun c hc => (List.perm_insertionSort gasLe l).mem_iff.mp hc
  refine ⟨hsorted, rfl, rfl, ?_, ?_, ?_, ?_, rfl, rfl, rfl⟩
  · intro c hc hcase hh
    exact sorted_gasLe_le_getLast _ hsorted hcase hh c hc
  · intro c hc lc hl
    exact sorted_gasLe_head_le _ hsorted lc hl c hc
  · intro hc hh
    have hin : hc ∈ l := hmem hc (List.mem_of_mem_getLast? hh)
    have hle := hgs hc hin
    refine ⟨hle, ?_, Nat.sub_add_cancel hle⟩
    unfold FuzzedCases.highest_gas
    rw [hh]
    rfl
  · intro lc hl
    unfold FuzzedCases.lowest_gas
    rw [hl]
    rfl

/-- C9 witness: two concrete cases with distinct gas values. -/
theorem fuzzed_cases_sorted_view_witness :
    (∀ cs ∈ ([⟨[1], 5, 2⟩, ⟨[2], 3, 1⟩] : List FuzzCase), cs.stipend ≤ cs.gas)
    ∧ (List.Sorted gasLe (FuzzedCases.new [⟨[1], 5, 2⟩, ⟨[2], 3, 1⟩]).cases
      ∧ (FuzzedCases.new [⟨[1], 5, 2⟩, ⟨[2], 3, 1⟩]).highest
        = (FuzzedCases.new [⟨[1], 5, 2⟩, ⟨[2], 3, 1⟩]).cases.getLast?
      ∧ (FuzzedCases.new [⟨[1], 5, 2⟩, ⟨[2], 3, 1⟩]).lowest
        = (FuzzedCases.new [⟨[1], 5, 2⟩, ⟨[2], 3, 1⟩]).cases.head?
      ∧ (∀ c ∈ (FuzzedCases.new [⟨[1], 5, 2⟩, ⟨[2], 3, 1⟩]).cases, ∀ hc,
          (FuzzedCases.new [⟨[1], 5, 2⟩, ⟨[2], 3, 1⟩]).highest = some hc → c.gas ≤ hc.gas)
      ∧ (∀ c ∈ (FuzzedCases.new [⟨[1], 5, 2⟩, ⟨[2], 3, 1⟩]).cases, ∀ lc,
          (FuzzedCases.new [⟨[1], 5, 2⟩, ⟨[2], 3, 1⟩]).lowest = some lc → lc.gas ≤ c.gas)
      ∧ (∀ hc, (FuzzedCases.new [⟨[1], 5, 2⟩, ⟨[2], 3, 1⟩]).highest = some hc →
          hc.stipend ≤ hc.gas
          ∧ (FuzzedCases.new [⟨[1], 5, 2⟩, ⟨[2], 3, 1⟩]).highest_gas false = hc.gas - hc.stipend
          ∧ hc.gas - hc.stipend + hc.stipend = hc.gas)
      ∧ (∀ lc, (FuzzedCases.new [⟨[1], 5, 2⟩, ⟨[2], 3, 1⟩]).lowest = some lc →
          (FuzzedCases.new [⟨[1], 5, 2⟩, ⟨[2], 3, 1⟩]).lowest_gas = lc.gas)
      ∧ (FuzzedCases.new []).highest_gas false = 0
      ∧ (FuzzedCases.new []).highest_gas true = 0
      ∧ (FuzzedCases.new []).lowest_gas = 0) :=
  ⟨by decide, fuzzed_cases_sorted_view [⟨[1], 5, 2⟩, ⟨[2], 3, 1⟩] (by decide)⟩

/-- When no iteration produces a `Case` outcome (each is rejected, fails the
infrastructure checks, or is a `CounterExample`), the loop leaves
`first_case` and `gas_by_case` at their starting values. -/
lemma run_iterations_no_case (env : FuzzEnv) (a : Nat) (sf : Bool) :
    ∀ (inputs : List Bytes) (ls s : LoopState),
      (∀ (st : List Nat) (c : Bytes), c ∈ inputs → ∀ co : CaseOutcome,
        (single_fuzz env.executor env.sender env.config st a sf c).2
          ≠ Except.ok (FuzzOutcome.Case co)) →
      run_iterations env a sf ls inputs = some s →
      s.first_case = ls.first_case ∧ s.gas_by_case = ls.gas_by_case := by
  intro inputs
  induction inputs with
  | nil =>
    intro ls s _ h
    unfold run_iterations at h
    rw [Option.some.injEq] at h
    subst h
    exact ⟨rfl, rfl⟩
  | cons c rest ih =>
    intro ls s hall h
    unfold run_iterations at h
    cases hstep : fuzz_step env a sf ls c with
    | none => rw [hstep] at h; cases h
    | some p =>
      obtain ⟨s₁, e⟩ := p
      rw [hstep] at h
      dsimp only at h
      have hrest := ih s₁ s (fun st c' hc' => hall st c' (List.mem_cons_of_mem c hc')) h
      rcases hsf : single_fuzz env.executor env.sender env.config ls.fuzz_state a sf c
        with ⟨st', res⟩
      cases res with
      | error e' =>
        rw [fuzz_step_of_error env a sf ls c st' e' hsf, Option.some.injEq,
          Prod.mk.injEq] at hstep
        rw [hrest.1, hrest.2, ← hstep.1]
        exact ⟨rfl, rfl⟩
      | ok out =>
        cases out with
        | Case co =>
          exact absurd (by rw [hsf])
            (hall ls.fuzz_state c (List.mem_cons_self c rest) co)
        | CounterExample ce =>
          rw [fuzz_step_of_counterexample env a sf ls c st' ce hsf, Option.some.injEq,
            Prod.mk.injEq] at hstep
          rw [hrest.1, hrest.2, ← hstep.1]
          exact ⟨rfl, rfl⟩

/-- C10: a session that records no `Case` at all (no iteration's outcome is a
`Case`: each is rejected, fails an infrastructure check, or is a
`CounterExample`) and still returns a result reports the all-default
`FuzzCase` as `first_case` — empty calldata, zero gas, zero stipend — and an
empty `gas_by_case`. -/
theorem no_case_yields_default_first_case
    (env : FuzzEnv) (a : Nat) (sf : Bool) (st₀ : List Nat) (inputs : List Bytes)
    (s : LoopState) (rr : Option TestError) (mgr : Nat) (r : FuzzTestResult)
    (hnocase : ∀ (st : List Nat) (c : Bytes), c ∈ inputs → ∀ co : CaseOutcome,
      (single_fuzz env.executor env.sender env.config st a sf c).2
        ≠ Except.ok (FuzzOutcome.Case co))
    (hrun : run_iterations env a sf (initLoopState st₀) inputs = some s)
    (hend : fuzz_end env s rr mgr = some r) :
    r.first_case = FuzzCase.default ∧ r.gas_by_case = [] := by
  obtain ⟨h1, h2⟩ := run_iterations_no_case env a sf inputs (initLoopState st₀) s
    hnocase hrun
  obtain ⟨hf, hg, -, -, -, -, -⟩ := fuzz_end_base_fields env s rr mgr r hend
  rw [hf, h1, hg, h2]
  exact ⟨rfl, rfl⟩

/-- C10 witness: a failing-only session — the single iteration produces a
`CounterExample` outcome (never a `Case`), the runner returns `Fail`, and the
result still carries the all-default `first_case` and empty `gas_by_case`. -/
theorem no_case_yields_default_first_case_witness :
    (∀ (st : List Nat) (c : Bytes), c ∈ ([[1, 1, 1, 1]] : List Bytes) → ∀ co : CaseOutcome,
      (single_fuzz envAlwaysFails.executor envAlwaysFails.sender envAlwaysFails.config
          st 7 false c).2
        ≠ Except.ok (FuzzOutcome.Case co))
    ∧ run_iterations envAlwaysFails 7 false (initLoopState []) [[1, 1, 1, 1]]
      = some stateAfterFirstFail
    ∧ fuzz_end envAlwaysFails stateAfterFirstFail
        (some (TestError.Fail "boom" [1, 1, 1, 1])) 65536 = some rFailSlot
    ∧ (rFailSlot.first_case = FuzzCase.default ∧ rFailSlot.gas_by_case = []) := by
  have hnocase : ∀ (st : List Nat) (c : Bytes), c ∈ ([[1, 1, 1, 1]] : List Bytes) →
      ∀ co : CaseOutcome,
      (single_fuzz envAlwaysFails.executor envAlwaysFails.sender envAlwaysFails.config
          st 7 false c).2
        ≠ Except.ok (FuzzOutcome.Case co) := by
    intro st c hc co h
    have hc' : c = [1, 1, 1, 1] := by
      rcases List.mem_cons.mp hc with h' | h'
      · exact h'
      · cases h'
    subst hc'
    have h' : Except.ok (ε := TestCaseError)
        (FuzzOutcome.CounterExample ceFirstFail) = Except.ok (FuzzOutcome.Case co) := h
    injection h' with h''
    injection h''
  exact ⟨hnocase, by decide, by decide,
    no_case_yields_default_first_case envAlwaysFails 7 false [] [[1, 1, 1, 1]]
      stateAfterFirstFail (some (TestError.Fail "boom" [1, 1, 1, 1])) 65536
      rFailSlot hnocase (by decide) (by decide)⟩

end FuzzVerify
